import Mathlib

/-!
# Verification of the elastic-package utility scripts

Shallow embedding of the three Python scripts of the repository:

* `scripts/fetch_phoenix_traces.py` — the trace session fetcher.  Python
  dictionaries parsed from JSON are embedded as the inductive `JValue`; the
  dictionary accesses (`d[k]`, `d.get(k, default)`, `k in d`) and Python
  truthiness are embedded by `pyIndex`, `pyGet`, `pyHasKey`, `pyTruthy`.
  Exceptions are embedded by `Except PyErr`.  The Python standard library
  collaborators `json.loads` / `json.dumps` are embedded by `jsonParse` /
  `jsonDumps` over `JValue` (JSON numbers are modelled as integers; float
  syntax, `NaN` / `Infinity` literals and `\uXXXX` escapes are out of the
  modelled fragment; the serializer escapes the control characters that have
  short escapes and passes other characters through verbatim).
* `test/packages/parallel/system/script.py` — the dashboard / reference
  cross-referencer.  Python's insertion-ordered dictionaries are embedded as
  association lists with first-occurrence update (`dictInsert`,
  `addReference`); `str.split` and `str.strip` are embedded by `pySplit` and
  `pyStrip`.
* `scripts/list_benchmark_packages.py` — the benchmark package lister.  The
  directory tree is embedded as `FSEntry`; `os.listdir` and `os.path.isdir`
  become `listdirAt` and `isdirAt` over that tree.
-/

/-- A JSON value, as produced by Python's `json.loads`.  Numbers are modelled
as integers (the floating-point part of JSON is outside the model).  Objects
are insertion-ordered key/value lists, matching Python dictionaries. -/
inductive JValue where
  | null
  | bool (b : Bool)
  | num (n : Int)
  | str (s : String)
  | arr (xs : List JValue)
  | obj (kvs : List (String × JValue))

/-- Key lookup inside an object value (`none` on non-objects). -/
def JValue.lookup? : JValue → String → Option JValue
  | .obj kvs, k => kvs.lookup k
  | _, _ => none

/-- `isinstance(v, str)`. -/
def JValue.isStr : JValue → Bool
  | .str _ => true
  | _ => false

/-- Whether the value is a mapping (a Python `dict`). -/
def JValue.isObj : JValue → Bool
  | .obj _ => true
  | _ => false

/-- Python exceptions that the fetcher can raise. -/
inductive PyErr where
  | keyError (k : String)
  | attrError
  | typeError
  | graphQLError (v : JValue)

/-- Python truthiness (`bool(v)`) of a JSON-shaped value. -/
def pyTruthy : JValue → Bool
  | .null => false
  | .bool b => b
  | .num n => decide (n ≠ 0)
  | .str s => decide (s ≠ "")
  | .arr xs => !xs.isEmpty
  | .obj kvs => !kvs.isEmpty

/-- `v.get(k, d)`: dictionary lookup with default; `AttributeError` when `v`
is not a dictionary. -/
def pyGet (v : JValue) (k : String) (d : JValue) : Except PyErr JValue :=
  match v with
  | .obj kvs => .ok ((kvs.lookup k).getD d)
  | _ => .error .attrError

/-- `v[k]`: dictionary subscription; `KeyError` when the key is absent,
`TypeError` when `v` is not a dictionary. -/
def pyIndex (v : JValue) (k : String) : Except PyErr JValue :=
  match v with
  | .obj kvs =>
    match kvs.lookup k with
    | some x => .ok x
    | none => .error (.keyError k)
  | _ => .error .typeError

/-- `k in v`: key membership for dictionaries, element membership for lists
(string containment and other Python cases are outside the model and embed
as `TypeError`; no claim exercises them). -/
def pyHasKey (v : JValue) (k : String) : Except PyErr Bool :=
  match v with
  | .obj kvs => .ok (kvs.lookup k).isSome
  | .arr xs => .ok (xs.any (fun x => match x with | .str s => s == k | _ => false))
  | _ => .error .typeError

/-- Iteration over a value that the source expects to be a list. -/
def asList (v : JValue) : Except PyErr (List JValue) :=
  match v with
  | .arr xs => .ok xs
  | _ => .error .typeError

/-! ## The `json` collaborator: `jsonParse` (`json.loads`) and `jsonDumps`
(`json.dumps`).  Both work on `List Char`; the parser is fuelled. -/

/-- The left brace character, kept out of literals. -/
def lbrace : Char := Char.ofNat 123

/-- The right brace character, kept out of literals. -/
def rbrace : Char := Char.ofNat 125

/-- JSON whitespace (RFC 8259: space, tab, line feed, carriage return). -/
def isWs (c : Char) : Bool := c = ' ' || c = '\t' || c = '\n' || c = '\r'

/-- Drop leading JSON whitespace. -/
def skipWs : List Char → List Char
  | [] => []
  | c :: cs => if isWs c then skipWs cs else c :: cs

/-- The digit character for `d < 10`. -/
def digitChar (d : Nat) : Char := Char.ofNat (48 + d)

/-- The numeric value of a digit character. -/
def digitVal (c : Char) : Nat := c.toNat - 48

/-- Split the longest leading run of decimal digits from the input. -/
def takeDigits : List Char → List Char × List Char
  | [] => ([], [])
  | c :: cs =>
    if c.isDigit then
      let p := takeDigits cs
      (c :: p.1, p.2)
    else ([], c :: cs)

/-- Value of a digit string. -/
def digitsToNat (ds : List Char) : Nat := ds.foldl (fun a c => 10 * a + digitVal c) 0

/-- Parse a nonempty run of decimal digits. -/
def parseNat (input : List Char) : Option (Nat × List Char) :=
  match takeDigits input with
  | ([], _) => none
  | (ds, r) => some (digitsToNat ds, r)

/-- Resolve one JSON short escape character. -/
def unescape (c : Char) : Option Char :=
  if c = '"' then some '"'
  else if c = '\\' then some '\\'
  else if c = '/' then some '/'
  else if c = 'n' then some '\n'
  else if c = 't' then some '\t'
  else if c = 'r' then some '\r'
  else if c = 'b' then some (Char.ofNat 8)
  else if c = 'f' then some (Char.ofNat 12)
  else none

/-- Parse the body of a JSON string, after the opening quote; returns the
decoded characters and the input remaining after the closing quote. -/
def parseStringBody : List Char → Option (List Char × List Char)
  | [] => none
  | c :: rest =>
    if c = '"' then some ([], rest)
    else if c = '\\' then
      match rest with
      | [] => none
      | e :: rest2 =>
        match unescape e with
        | some u => (parseStringBody rest2).map (fun p => (u :: p.1, p.2))
        | none => none
    else (parseStringBody rest).map (fun p => (c :: p.1, p.2))

mutual

/-- Fuelled recursive-descent JSON value parser. -/
def parseVal : Nat → List Char → Option (JValue × List Char)
  | 0, _ => none
  | fuel + 1, input =>
    match skipWs input with
    | [] => none
    | c :: rest =>
      if c = 'n' then
        match rest with
        | 'u' :: 'l' :: 'l' :: r => some (.null, r)
        | _ => none
      else if c = 't' then
        match rest with
        | 'r' :: 'u' :: 'e' :: r => some (.bool true, r)
        | _ => none
      else if c = 'f' then
        match rest with
        | 'a' :: 'l' :: 's' :: 'e' :: r => some (.bool false, r)
        | _ => none
      else if c = '"' then
        (parseStringBody rest).map (fun p => (.str (String.mk p.1), p.2))
      else if c = '[' then
        match skipWs rest with
        | [] => none
        | d :: r2 =>
          if d = ']' then some (.arr [], r2)
          else (parseElems fuel (d :: r2)).map (fun p => (.arr p.1, p.2))
      else if c = lbrace then
        match skipWs rest with
        | [] => none
        | d :: r2 =>
          if d = rbrace then some (.obj [], r2)
          else (parseMembers fuel (d :: r2)).map (fun p => (.obj p.1, p.2))
      else if c = '-' then
        (parseNat rest).map (fun p => (.num (-(p.1 : Int)), p.2))
      else if c.isDigit then
        (parseNat (c :: rest)).map (fun p => (.num (p.1 : Int), p.2))
      else none

/-- Parse the elements of a nonempty JSON array, up to and including the
closing bracket. -/
def parseElems : Nat → List Char → Option (List JValue × List Char)
  | 0, _ => none
  | fuel + 1, input =>
    match parseVal fuel input with
    | none => none
    | some (v, rest) =>
      match skipWs rest with
      | [] => none
      | d :: r2 =>
        if d = ',' then (parseElems fuel r2).map (fun p => (v :: p.1, p.2))
        else if d = ']' then some ([v], r2)
        else none

/-- Parse the members of a nonempty JSON object, up to and including the
closing brace. -/
def parseMembers : Nat → List Char → Option (List (String × JValue) × List Char)
  | 0, _ => none
  | fuel + 1, input =>
    match skipWs input with
    | [] => none
    | c :: rest =>
      if c = '"' then
        match parseStringBody rest with
        | none => none
        | some (kcs, rest2) =>
          match skipWs rest2 with
          | [] => none
          | d :: rest3 =>
            if d = ':' then
              match parseVal fuel rest3 with
              | none => none
              | some (v, rest4) =>
                match skipWs rest4 with
                | [] => none
                | e :: rest5 =>
                  if e = ',' then
                    (parseMembers fuel rest5).map (fun p => ((String.mk kcs, v) :: p.1, p.2))
                  else if e = rbrace then some ([(String.mk kcs, v)], rest5)
                  else none
            else none
      else none

end

/-- `json.loads`: parse a complete JSON document (the whole input must be
consumed, up to trailing whitespace); `none` models `JSONDecodeError`. -/
def jsonParse (s : String) : Option JValue :=
  match parseVal (s.length + 1) s.data with
  | some (v, rest) => if skipWs rest = [] then some v else none
  | none => none

/-- Serialization of one string character (quote, backslash and the control
characters with short escapes are escaped; everything else is verbatim). -/
def escChar (c : Char) : List Char :=
  if c = '"' then ['\\', '"']
  else if c = '\\' then ['\\', '\\']
  else if c = '\n' then ['\\', 'n']
  else if c = '\t' then ['\\', 't']
  else if c = '\r' then ['\\', 'r']
  else if c = Char.ofNat 8 then ['\\', 'b']
  else if c = Char.ofNat 12 then ['\\', 'f']
  else [c]

/-- Serialization of a string body. -/
def escString (s : String) : List Char := s.data.flatMap escChar

/-- Decimal digits of a natural number. -/
def natChars (n : Nat) : List Char :=
  if _h : n < 10 then [digitChar n]
  else natChars (n / 10) ++ [digitChar (n % 10)]
decreasing_by exact Nat.div_lt_self (by omega) (by omega)

/-- Decimal digits of an integer. -/
def intChars (n : Int) : List Char :=
  if n < 0 then '-' :: natChars n.natAbs else natChars n.toNat

mutual

/-- `json.dumps` (compact form) of a value, as characters. -/
def dumpVal : JValue → List Char
  | .null => "null".data
  | .bool true => "true".data
  | .bool false => "false".data
  | .num n => intChars n
  | .str s => '"' :: (escString s ++ ['"'])
  | .arr xs => '[' :: (dumpElems xs ++ [']'])
  | .obj kvs => lbrace :: (dumpMembers kvs ++ [rbrace])

/-- Comma-separated serialization of array elements. -/
def dumpElems : List JValue → List Char
  | [] => []
  | [x] => dumpVal x
  | x :: y :: xs => dumpVal x ++ ',' :: dumpElems (y :: xs)

/-- Comma-separated serialization of object members. -/
def dumpMembers : List (String × JValue) → List Char
  | [] => []
  | [(k, v)] => '"' :: (escString k ++ '"' :: ':' :: dumpVal v)
  | (k, v) :: m :: kvs =>
    ('"' :: (escString k ++ '"' :: ':' :: dumpVal v)) ++ ',' :: dumpMembers (m :: kvs)

end

/-- `json.dumps` on a value. -/
def jsonDumps (v : JValue) : String := String.mk (dumpVal v)

/-- Non-digit-headed (or empty) remainder: a number token before it cannot
be extended. -/
def numOk : List Char → Bool
  | [] => true
  | c :: _ => !c.isDigit

/-! ## `scripts/fetch_phoenix_traces.py` — `fetch_traces` and `main`

`fetch_traces` below starts at the Python line `data = response.json()`:
its argument is the parsed JSON body of the GraphQL response.  The HTTP
transport (`requests.post` / `raise_for_status`) is outside the embedding;
a non-success HTTP status never reaches this code. -/

/-- Lines 107–113 of the source: best-effort parse of the span's
`attributes` string (`if attrs and isinstance(attrs, str): try json.loads`). -/
def parse_attributes (attrs : JValue) : JValue :=
  if pyTruthy attrs && attrs.isStr then
    match attrs with
    | .str s =>
      match jsonParse s with
      | some v => v
      | none => attrs
    | _ => attrs
  else attrs

/-- Lines 127–128 of the source: the conditional expression
`span.get(k, \{}).get("value") if span.get(k) else None` used for the
`input` and `output` fields. -/
def value_field_of (span : JValue) (k : String) : Except PyErr JValue := do
  let guardV ← pyGet span k .null
  if pyTruthy guardV then do
    let i ← pyGet span k (.obj [])
    pyGet i "value" .null
  else pure .null

/-- Lines 106–130 of the source: build `span_data` from one span node. -/
def span_data_of (span : JValue) : Except PyErr JValue := do
  let attrs0 ← pyGet span "attributes" .null
  let attrs := parse_attributes attrs0
  let name ← pyIndex span "name"
  let spanKind ← pyIndex span "spanKind"
  let statusCode ← pyIndex span "statusCode"
  let statusMessage ← pyGet span "statusMessage" .null
  let startTime ← pyIndex span "startTime"
  let endTime ← pyIndex span "endTime"
  let latencyMs ← pyIndex span "latencyMs"
  let parentId ← pyIndex span "parentId"
  let tokenCountTotal ← pyIndex span "tokenCountTotal"
  let tokenCountPrompt ← pyIndex span "tokenCountPrompt"
  let tokenCountCompletion ← pyIndex span "tokenCountCompletion"
  let inputVal ← value_field_of span "input"
  let outputVal ← value_field_of span "output"
  pure (.obj [("name", name), ("spanKind", spanKind), ("statusCode", statusCode),
    ("statusMessage", statusMessage), ("startTime", startTime), ("endTime", endTime),
    ("latencyMs", latencyMs), ("parentId", parentId), ("tokenCountTotal", tokenCountTotal),
    ("tokenCountPrompt", tokenCountPrompt), ("tokenCountCompletion", tokenCountCompletion),
    ("input", inputVal), ("output", outputVal), ("attributes", attrs)])

/-- Line 106 of the source: `span = span_edge["node"]`, then build the span. -/
def span_from_edge (span_edge : JValue) : Except PyErr JValue := do
  let span ← pyIndex span_edge "node"
  span_data_of span

/-- Lines 95–133 of the source: build `trace_data` from one trace edge
(`trace = trace_edge["node"]`, fixed fields, then the span loop appending in
server order). -/
def trace_data_of (trace_edge : JValue) : Except PyErr JValue := do
  let trace ← pyIndex trace_edge "node"
  let traceId ← pyIndex trace "traceId"
  let startTime ← pyIndex trace "startTime"
  let endTime ← pyIndex trace "endTime"
  let latencyMs ← pyIndex trace "latencyMs"
  let spansField ← pyGet trace "spans" (.obj [])
  let edgesV ← pyGet spansField "edges" (.arr [])
  let edges ← asList edgesV
  let spans ← edges.mapM span_from_edge
  pure (.obj [("traceId", traceId), ("startTime", startTime), ("endTime", endTime),
    ("latencyMs", latencyMs), ("spans", .arr spans)])

/-- Lines 77–135 of the source, from `data = response.json()` on: the GraphQL
error check, the `NotFound` check (`return None`, embedded as `.ok none`) and
the flattening loop, appending traces in server order. -/
def fetch_traces (data : JValue) : Except PyErr (Option JValue) := do
  let hasErrors ← pyHasKey data "errors"
  if hasErrors then
    let e ← pyIndex data "errors"
    Except.error (.graphQLError e)
  else do
    let d ← pyGet data "data" (.obj [])
    let session_data ← pyGet d "getProjectSessionById" .null
    if !pyTruthy session_data then
      pure none
    else do
      let sessionId ← pyIndex session_data "sessionId"
      let numTraces ← pyIndex session_data "numTraces"
      let startTime ← pyIndex session_data "startTime"
      let endTime ← pyIndex session_data "endTime"
      let tracesField ← pyGet session_data "traces" (.obj [])
      let edgesV ← pyGet tracesField "edges" (.arr [])
      let edges ← asList edgesV
      let traces ← edges.mapM trace_data_of
      pure (some (.obj [("sessionId", sessionId), ("numTraces", numTraces),
        ("startTime", startTime), ("endTime", endTime), ("traces", .arr traces)]))

/-- What `main` (lines 162–183 of the source) does after calling
`fetch_traces`. -/
inductive MainOutcome where
  | errorExit
  | notFoundExit
  | writeFile (contents : String)
  | writeStdout (contents : String)

/-- Lines 162–183 of the source: the `try/except` around `fetch_traces`
(any exception prints a diagnostic and exits 1), the `if not result` check
(prints a diagnostic and exits 1), then `json.dumps` and the write to the
output file (when a truthy path was given) or to standard output. -/
def mainOutcome (fetchResult : Except PyErr (Option JValue)) (outputPath : Option String) :
    MainOutcome :=
  match fetchResult with
  | .error _ => .errorExit
  | .ok r =>
    let result := r.getD .null
    if !pyTruthy result then .notFoundExit
    else
      let out := jsonDumps result
      match outputPath with
      | some p => if p ≠ "" then .writeFile out else .writeStdout out
      | none => .writeStdout out

/-- The process exit code of each outcome (`sys.exit(1)` on the two failure
paths, 0 otherwise). -/
def exitCode : MainOutcome → Nat
  | .errorExit => 1
  | .notFoundExit => 1
  | .writeFile _ => 0
  | .writeStdout _ => 0

/-- Whether the outcome wrote an output file. -/
def writesFile : MainOutcome → Bool
  | .writeFile _ => true
  | _ => false

/-- Whether the outcome printed a failure diagnostic to stderr
(`Error fetching traces: ...` or `No session found for ID: ...`). -/
def printsDiagnostic : MainOutcome → Bool
  | .errorExit => true
  | .notFoundExit => true
  | _ => false

/-! ## Well-formed GraphQL responses

A well-formed response (§6 of the specification) is the encoding of a typed
session: every requested span field is present (GraphQL returns `null` for
missing values, never omits a requested field), `input` and `output` are
`null` or `… { value }` objects, and traces/spans sit in `edges[].node`
wrappers. -/

/-- A well-formed span node of the GraphQL response.  `input` / `output` are
`none` when the response carries `null`, `some v` when it carries an object
whose `value` field is `v`. -/
structure GSpan where
  name : JValue
  spanKind : JValue
  statusCode : JValue
  statusMessage : JValue
  startTime : JValue
  endTime : JValue
  latencyMs : JValue
  parentId : JValue
  tokenCountTotal : JValue
  tokenCountPrompt : JValue
  tokenCountCompletion : JValue
  input : Option JValue
  output : Option JValue
  attributes : JValue

/-- Encoding of `input` / `output`: `null` or an object with a `value` key. -/
def encValue : Option JValue → JValue
  | none => .null
  | some v => .obj [("value", v)]

/-- The span node as it appears in the response JSON. -/
def GSpan.encode (s : GSpan) : JValue :=
  .obj [("name", s.name), ("spanKind", s.spanKind), ("statusCode", s.statusCode),
    ("statusMessage", s.statusMessage), ("startTime", s.startTime), ("endTime", s.endTime),
    ("latencyMs", s.latencyMs), ("parentId", s.parentId),
    ("tokenCountTotal", s.tokenCountTotal), ("tokenCountPrompt", s.tokenCountPrompt),
    ("tokenCountCompletion", s.tokenCountCompletion),
    ("input", encValue s.input), ("output", encValue s.output),
    ("attributes", s.attributes)]

/-- The flattened span that lines 115–130 produce for a well-formed node. -/
def spanOut (s : GSpan) : JValue :=
  .obj [("name", s.name), ("spanKind", s.spanKind), ("statusCode", s.statusCode),
    ("statusMessage", s.statusMessage), ("startTime", s.startTime), ("endTime", s.endTime),
    ("latencyMs", s.latencyMs), ("parentId", s.parentId),
    ("tokenCountTotal", s.tokenCountTotal), ("tokenCountPrompt", s.tokenCountPrompt),
    ("tokenCountCompletion", s.tokenCountCompletion),
    ("input", (s.input).getD .null), ("output", (s.output).getD .null),
    ("attributes", parse_attributes s.attributes)]

/-- A well-formed trace node with its span edges in server order. -/
structure GTrace where
  traceId : JValue
  startTime : JValue
  endTime : JValue
  latencyMs : JValue
  spanEdges : List GSpan

/-- The trace node as it appears in the response JSON. -/
def GTrace.encode (t : GTrace) : JValue :=
  .obj [("traceId", t.traceId), ("startTime", t.startTime), ("endTime", t.endTime),
    ("latencyMs", t.latencyMs),
    ("spans", .obj [("edges", .arr (t.spanEdges.map (fun s => .obj [("node", s.encode)])))])]

/-- The flattened trace that lines 97–131 produce for a well-formed edge. -/
def traceOut (t : GTrace) : JValue :=
  .obj [("traceId", t.traceId), ("startTime", t.startTime), ("endTime", t.endTime),
    ("latencyMs", t.latencyMs), ("spans", .arr (t.spanEdges.map spanOut))]

/-- A well-formed session with its trace edges in server order. -/
structure GSession where
  sessionId : JValue
  numTraces : JValue
  startTime : JValue
  endTime : JValue
  traceEdges : List GTrace

/-- The `getProjectSessionById` object of a well-formed response. -/
def GSession.encode (g : GSession) : JValue :=
  .obj [("sessionId", g.sessionId), ("numTraces", g.numTraces),
    ("startTime", g.startTime), ("endTime", g.endTime),
    ("traces", .obj [("edges", .arr (g.traceEdges.map (fun t => .obj [("node", t.encode)])))])]

/-- The full response payload of a well-formed response (no `errors` key,
`data.getProjectSessionById` present). -/
def GSession.payload (g : GSession) : JValue :=
  .obj [("data", .obj [("getProjectSessionById", g.encode)])]

/-- The flattened result that `fetch_traces` assembles for a well-formed
response. -/
def sessionOut (g : GSession) : JValue :=
  .obj [("sessionId", g.sessionId), ("numTraces", g.numTraces),
    ("startTime", g.startTime), ("endTime", g.endTime),
    ("traces", .arr (g.traceEdges.map traceOut))]

/-- Extract the `traces` list from a fetch result. -/
def tracesOf (r : Except PyErr (Option JValue)) : Option (List JValue) :=
  match r with
  | .ok (some v) =>
    match v.lookup? "traces" with
    | some (.arr ts) => some ts
    | _ => none
  | _ => none

/-- Extract a flattened trace's `traceId`. -/
def traceIdOf (tv : JValue) : Option JValue := tv.lookup? "traceId"

/-- Extract a flattened trace's list of spans. -/
def spansOf (tv : JValue) : Option (List JValue) :=
  match tv.lookup? "spans" with
  | some (.arr ss) => some ss
  | _ => none

/-- Extract a flattened span's `name`. -/
def spanNameOf (sv : JValue) : Option JValue := sv.lookup? "name"

/-! ## `test/packages/parallel/system/script.py` — the cross-referencer -/

/-- Python `str.strip` whitespace (space, tab, LF, CR, VT, FF). -/
def isPySpace (c : Char) : Bool :=
  c = ' ' || c = '\t' || c = '\n' || c = '\r' || c = Char.ofNat 11 || c = Char.ofNat 12

/-- `str.strip()`. -/
def pyStrip (s : String) : String :=
  String.mk (((s.data.dropWhile isPySpace).reverse.dropWhile isPySpace).reverse)

/-- Split a character list on a separator character (Python `str.split(sep)`
for a one-character separator: never returns an empty list). -/
def splitChar (sep : Char) : List Char → List (List Char)
  | [] => [[]]
  | c :: rest =>
    match splitChar sep rest with
    | [] => [[]]
    | g :: gs => if c = sep then [] :: g :: gs else (c :: g) :: gs

/-- `s.split(sep)` for a one-character separator. -/
def pySplit (s : String) (sep : Char) : List String := (splitChar sep s.data).map String.mk

/-- Lines 20–23 of the source: `fields = line.split(":")`,
`dashboard = fields[0]`,
`references = [r.strip() for r in fields[1].split(",")]`.  A line with no
colon makes `fields[1]` raise `IndexError`, embedded as `none`. -/
def parseLine (line : String) : Option (String × List String) :=
  match pySplit line ':' with
  | [] => none
  | [_] => none
  | dashboard :: refsField :: _ => some (dashboard, (pySplit refsField ',').map pyStrip)

/-- `d[k] = v` on an insertion-ordered dictionary: replace the first (only)
occurrence in place, else append. -/
def dictInsert : List (String × List String) → String → List String → List (String × List String)
  | [], k, v => [(k, v)]
  | (k', v') :: rest, k, v =>
    if k' = k then (k, v) :: rest else (k', v') :: dictInsert rest k v

/-- Lines 27–31 of the source: append `dashboard` to `references_dashboards[r]`,
creating the entry when absent. -/
def addReference : List (String × List String) → String → String → List (String × List String)
  | [], dashboard, r => [(r, [dashboard])]
  | (k, ds) :: rest, dashboard, r =>
    if k = r then (k, ds ++ [dashboard]) :: rest
    else (k, ds) :: addReference rest dashboard r

/-- One iteration of the `for line in lines` loop (lines 19–31 of the
source), threading both dictionaries. -/
def processLine (maps : List (String × List String) × List (String × List String))
    (line : String) :
    Option (List (String × List String) × List (String × List String)) :=
  match parseLine line with
  | none => none
  | some (dashboard, references) =>
    some (dictInsert maps.1 dashboard references,
      references.foldl (fun rd r => addReference rd dashboard r) maps.2)

/-- The whole loop: build `dashboards_references` (first component) and
`references_dashboards` (second component) from the file's lines. -/
def buildMaps (lines : List String) :
    Option (List (String × List String) × List (String × List String)) :=
  lines.foldlM processLine ([], [])

/-- Line 39 of the source: `len(references_dashboards[ref])`, the count the
script prints next to a reference (`none` embeds the `KeyError` case). -/
def refCount (rd : List (String × List String)) (r : String) : Option Nat :=
  (rd.lookup r).map List.length

/-- The references of the last input line naming a given dashboard (what
repeated `dashboards_references[dashboard] = references` assignments keep). -/
def lastRefsOf (lines : List String) (d : String) : Option (List String) :=
  match lines with
  | [] => none
  | l :: ls =>
    match lastRefsOf ls d with
    | some refs => some refs
    | none =>
      match parseLine l with
      | some q => if q.1 = d then some q.2 else none
      | none => none

/-- Total number of occurrences of a reference across all lines' reference
lists, counting multiplicity inside a line. -/
def totalOccurrences (lines : List String) (r : String) : Nat :=
  (lines.map (fun l =>
    match parseLine l with
    | some q => q.2.count r
    | none => 0)).sum

/-- The input lines whose reference list contains a given reference. -/
def linesListing (lines : List String) (r : String) : List String :=
  lines.filter (fun l =>
    match parseLine l with
    | some q => q.2.contains r
    | none => false)

/-! ## `scripts/list_benchmark_packages.py` — the benchmark lister -/

/-- A filesystem entry: a file, or a directory with named children in
enumeration order. -/
inductive FSEntry where
  | file
  | dir (entries : List (String × FSEntry))

/-- Child of a directory by name. -/
def FSEntry.lookup : FSEntry → String → Option FSEntry
  | .dir es, name => es.lookup name
  | .file, _ => none

/-- Resolve a relative path (as components) against an entry. -/
def FSEntry.resolve : FSEntry → List String → Option FSEntry
  | e, [] => some e
  | e, n :: ns =>
    match e.lookup n with
    | some c => c.resolve ns
    | none => none

/-- `os.path.isdir` relative to a root entry. -/
def isdirAt (root : FSEntry) (path : List String) : Bool :=
  match root.resolve path with
  | some (.dir _) => true
  | _ => false

/-- `os.listdir` relative to a root entry (`none` when the path is not a
directory). -/
def listdirAt (root : FSEntry) (path : List String) : Option (List String) :=
  match root.resolve path with
  | some (.dir es) => some (es.map Prod.fst)
  | _ => none

/-- The lines printed for one `package_path` name (lines 11–24 of the
source): check `packages/<pkg>/_dev/benchmark/rally`, print the package
header, then one line per benchmark entry that is a directory, then a blank
line. -/
def packageBlock (packagesDir : FSEntry) (package_path : String) : List String :=
  let rally_path := [package_path, "_dev", "benchmark", "rally"]
  if isdirAt packagesDir rally_path then
    ("Package: " ++ package_path) ::
      (((listdirAt packagesDir rally_path).getD []).filterMap (fun b =>
        if isdirAt packagesDir (rally_path ++ [b]) then some ("* " ++ b) else none)
      ++ [""])
  else []

/-- The module body of the source: `for package_path in os.listdir(packages_path)`
with the per-package block; the printed lines in order.  `none` embeds the
`FileNotFoundError` when the packages path is not a directory. -/
def list_benchmark_packages (packagesDir : FSEntry) : Option (List String) :=
  match listdirAt packagesDir [] with
  | none => none
  | some names => some (names.flatMap (packageBlock packagesDir))

/-- The fixed benchmark subpath inside a package. -/
def rallyOf (node : FSEntry) : Option FSEntry := node.resolve ["_dev", "benchmark", "rally"]

/-- The spec-side characterization the lister is compared against: "The
benchmark lister prints a package name only when that package contains the
fixed benchmark subdirectory, and lists exactly its immediate subdirectory
names beneath it" — the report stated structurally over the directory
entries themselves, not via path resolution. -/
def benchmarkReport (es : List (String × FSEntry)) : List String :=
  es.flatMap (fun p =>
    match rallyOf p.2 with
    | some (.dir bes) =>
      ("Package: " ++ p.1) ::
        ((bes.filterMap (fun q =>
          match q.2 with
          | .dir _ => some ("* " ++ q.1)
          | .file => none))
        ++ [""])
    | _ => [])

/-- No two children of the directory share a name. -/
def nodupKeysFS : List (String × FSEntry) → Bool
  | [] => true
  | (k, _) :: rest => !(rest.any (fun p => p.1 == k)) && nodupKeysFS rest

/-- The rally directory of the entry, when present, has no duplicate child
names. -/
def rallyNodup (p : String × FSEntry) : Bool :=
  match rallyOf p.2 with
  | some (.dir bes) => nodupKeysFS bes
  | _ => true

/-! ## Concrete inputs used by witnesses and counterexamples -/

/-- A baseline well-formed span node. -/
def exSpan : GSpan :=
  ⟨.str "span", .str "CHAIN", .str "OK", .null, .str "t0", .str "t1", .num 5, .null,
    .null, .null, .null, none, none, .null⟩

/-- A well-formed session with two traces carrying one and two spans. -/
def gEx : GSession :=
  ⟨.str "s1", .num 2, .str "t0", .str "t9",
    [⟨.str "tr1", .str "t0", .str "t4", .num 12, [exSpan]⟩,
     ⟨.str "tr2", .str "t5", .str "t9", .num 34,
       [{ exSpan with attributes := .str "not json" }, exSpan]⟩]⟩

/-- Span whose `attributes` string is not valid JSON. -/
def c2span : GSpan := { exSpan with attributes := .str "not json" }

/-- Span whose `attributes` string is valid JSON (an array). -/
def c3span : GSpan := { exSpan with attributes := .str "[1,2]" }

/-- Span whose `attributes` string parses to a JSON number, not a mapping. -/
def c4span : JValue :=
  .obj [("name", .str "s"), ("spanKind", .str "LLM"), ("statusCode", .str "OK"),
    ("statusMessage", .null), ("startTime", .str "t0"), ("endTime", .str "t1"),
    ("latencyMs", .num 7), ("parentId", .null), ("tokenCountTotal", .null),
    ("tokenCountPrompt", .null), ("tokenCountCompletion", .null), ("input", .null),
    ("output", .null), ("attributes", .str "5")]

/-- The flattened span the source produces for `c4span`. -/
def c4out : JValue :=
  .obj [("name", .str "s"), ("spanKind", .str "LLM"), ("statusCode", .str "OK"),
    ("statusMessage", .null), ("startTime", .str "t0"), ("endTime", .str "t1"),
    ("latencyMs", .num 7), ("parentId", .null), ("tokenCountTotal", .null),
    ("tokenCountPrompt", .null), ("tokenCountCompletion", .null), ("input", .null),
    ("output", .null), ("attributes", .num 5)]

/-- Span node with the `tokenCountTotal` key absent (all other required keys
present). -/
def c6badSpan : JValue :=
  .obj [("name", .str "s"), ("spanKind", .str "LLM"), ("statusCode", .str "OK"),
    ("statusMessage", .null), ("startTime", .str "t0"), ("endTime", .str "t1"),
    ("latencyMs", .num 7), ("parentId", .null),
    ("tokenCountPrompt", .null), ("tokenCountCompletion", .null), ("input", .null),
    ("output", .null), ("attributes", .str "x")]

/-- Span node with a mixed optional-field profile: `statusMessage` and
`input` absent, `output` null, `tokenCountTotal` non-null (5), the other two
token counts null. -/
def c6okSpan : List (String × JValue) :=
  [("name", .str "s"), ("spanKind", .str "LLM"), ("statusCode", .str "OK"),
    ("startTime", .str "t0"), ("endTime", .str "t1"), ("latencyMs", .num 7),
    ("parentId", .null), ("tokenCountTotal", .num 5), ("tokenCountPrompt", .null),
    ("tokenCountCompletion", .null), ("output", .null)]

/-- The cross-reference list file of the spec's example, as `readlines` sees
it. -/
def c7lines : List String := ["A:x, y\n", "B:y\n"]

/-- A list file where dashboard `A` appears on two lines and reference `y`
twice on the first line. -/
def c10lines : List String := ["A:y, y\n", "A:z\n"]

/-- A packages directory: one package with a rally benchmark directory (one
benchmark subdirectory and one stray file), one package without, one stray
file. -/
def fsEx : List (String × FSEntry) :=
  [("aws", .dir [("_dev", .dir [("benchmark", .dir [("rally", .dir
      [("bench1", .dir []), ("readme.md", .file)])])])]),
    ("nginx", .dir [("_dev", .dir [])]),
    ("notes.txt", .file)]

/-! ## Refinement of `fetch_traces` on well-formed responses -/

theorem span_data_of_encode (s : GSpan) : span_data_of s.encode = .ok (spanOut s) := by
  rcases s with ⟨n, k, c, m, st, en, lm, pid, t1, t2, t3, inp, outp, at0⟩
  cases inp <;> cases outp <;> rfl

theorem span_from_edge_encode (s : GSpan) :
    span_from_edge (.obj [("node", s.encode)]) = .ok (spanOut s) := by
  have h := span_data_of_encode s
  simp [span_from_edge, pyIndex, List.lookup]
  exact h

theorem mapM_span (l : List GSpan) :
    (l.map (fun s => JValue.obj [("node", s.encode)])).mapM span_from_edge
      = .ok (l.map spanOut) := by
  induction l with
  | nil => rfl
  | cons s rest ih =>
    rw [List.map_cons, List.mapM_cons, span_from_edge_encode s, ih]
    rfl

theorem trace_data_of_encode (t : GTrace) :
    trace_data_of (.obj [("node", t.encode)]) = .ok (traceOut t) := by
  rcases t with ⟨tid, st, en, lm, spans⟩
  have key : trace_data_of (.obj [("node", (GTrace.mk tid st en lm spans).encode)])
      = Except.bind ((spans.map (fun s => JValue.obj [("node", s.encode)])).mapM span_from_edge)
        (fun ss => Except.ok (.obj [("traceId", tid), ("startTime", st), ("endTime", en),
          ("latencyMs", lm), ("spans", .arr ss)])) := rfl
  rw [key, mapM_span spans]
  rfl

theorem mapM_trace (l : List GTrace) :
    (l.map (fun t => JValue.obj [("node", t.encode)])).mapM trace_data_of
      = .ok (l.map traceOut) := by
  induction l with
  | nil => rfl
  | cons t rest ih =>
    rw [List.map_cons, List.mapM_cons, trace_data_of_encode t, ih]
    rfl

theorem fetch_traces_payload (g : GSession) :
    fetch_traces g.payload = .ok (some (sessionOut g)) := by
  rcases g with ⟨sid, nt, st, en, traces⟩
  have key : fetch_traces (GSession.payload (GSession.mk sid nt st en traces))
      = Except.bind ((traces.map (fun t => JValue.obj [("node", t.encode)])).mapM trace_data_of)
        (fun ts => Except.ok (some (.obj [("sessionId", sid), ("numTraces", nt),
          ("startTime", st), ("endTime", en), ("traces", .arr ts)]))) := rfl
  rw [key, mapM_trace traces]
  rfl

/-- Claim C1: for every well-formed GraphQL response whose session contains N
trace edges with per-trace span-edge counts s1..sN, `fetch_traces` returns a
result whose `traces` list has length N and whose i-th trace's `spans` list
has length si, with traces and spans appearing in the same order as in the
server response (witnessed here by the `traceId` and span `name`
projections matching index for index). -/
theorem fetch_traces_preserves_counts_and_order (g : GSession) :
    (tracesOf (fetch_traces g.payload)).map List.length = some g.traceEdges.length ∧
    (tracesOf (fetch_traces g.payload)).map (fun ts => ts.map traceIdOf)
      = some (g.traceEdges.map (fun t => some t.traceId)) ∧
    (tracesOf (fetch_traces g.payload)).map
        (fun ts => ts.map (fun tv => (spansOf tv).map List.length))
      = some (g.traceEdges.map (fun t => some t.spanEdges.length)) ∧
    (tracesOf (fetch_traces g.payload)).map
        (fun ts => ts.map (fun tv => (spansOf tv).map (fun ss => ss.map spanNameOf)))
      = some (g.traceEdges.map (fun t => some (t.spanEdges.map (fun s => some s.name)))) := by
  rw [fetch_traces_payload g]
  have ht : tracesOf (Except.ok (some (sessionOut g))) = some (g.traceEdges.map traceOut) := rfl
  rw [ht]
  refine ⟨by simp, ?_, ?_, ?_⟩
  · simp only [Option.map_some', List.map_map]
    rfl
  · simp only [Option.map_some', List.map_map]
    congr 1
    refine List.map_congr_left ?_
    intro t _
    show (spansOf (traceOut t)).map List.length = some t.spanEdges.length
    have h2 : spansOf (traceOut t) = some (t.spanEdges.map spanOut) := rfl
    rw [h2]
    simp
  · simp only [Option.map_some', List.map_map]
    congr 1
    refine List.map_congr_left ?_
    intro t _
    show (spansOf (traceOut t)).map (fun ss => ss.map spanNameOf)
      = some (t.spanEdges.map (fun s => some s.name))
    have h2 : spansOf (traceOut t) = some (t.spanEdges.map spanOut) := rfl
    rw [h2]
    simp only [Option.map_some', List.map_map]
    rfl

theorem spanOut_attributes (s : GSpan) :
    (spanOut s).lookup? "attributes" = some (parse_attributes s.attributes) := rfl

/-- Claim C2: for every span whose `attributes` field is a non-empty string
that is not valid JSON, flattening does not raise any error and the output
span's `attributes` value equals the original input string, byte for byte. -/
theorem attributes_invalid_json_preserved (s : GSpan) (a : String)
    (hs : s.attributes = .str a) (hne : a ≠ "") (hbad : jsonParse a = none) :
    span_data_of s.encode = .ok (spanOut s) ∧
    (spanOut s).lookup? "attributes" = some (.str a) := by
  refine ⟨span_data_of_encode s, ?_⟩
  rw [spanOut_attributes, hs]
  simp [parse_attributes, pyTruthy, JValue.isStr, hne, hbad]

theorem c2_witness :
    span_data_of c2span.encode = .ok (spanOut c2span) ∧
    (spanOut c2span).lookup? "attributes" = some (.str "not json") :=
  attributes_invalid_json_preserved c2span "not json" rfl (by decide) rfl

/-- Claim C4 (amended): for every span whose `attributes` field is a string,
the flattened `attributes` value is either the JSON value obtained by
parsing that string (when it parses — not necessarily a mapping) or the
original string (when it does not). -/
theorem attributes_parsed_or_preserved (s : GSpan) (a : String)
    (hs : s.attributes = .str a) :
    span_data_of s.encode = .ok (spanOut s) ∧
    ((∃ v, jsonParse a = some v ∧ (spanOut s).lookup? "attributes" = some v) ∨
      (jsonParse a = none ∧ (spanOut s).lookup? "attributes" = some (.str a))) := by
  refine ⟨span_data_of_encode s, ?_⟩
  rw [spanOut_attributes, hs]
  cases h : jsonParse a with
  | some v =>
    left
    have hne : a ≠ "" := by
      intro he
      rw [he] at h
      rw [show jsonParse "" = none from rfl] at h
      exact Option.noConfusion h
    refine ⟨v, rfl, ?_⟩
    simp [parse_attributes, pyTruthy, JValue.isStr, hne, h]
  | none =>
    right
    refine ⟨rfl, ?_⟩
    by_cases he : a = "" <;> simp [parse_attributes, pyTruthy, JValue.isStr, he, h]

theorem c4_witness :
    span_data_of c2span.encode = .ok (spanOut c2span) ∧
    ((∃ v, jsonParse "not json" = some v ∧
        (spanOut c2span).lookup? "attributes" = some v) ∨
      (jsonParse "not json" = none ∧
        (spanOut c2span).lookup? "attributes" = some (.str "not json"))) :=
  attributes_parsed_or_preserved c2span "not json" rfl

/-- Claim C4 counterexample: a span whose `attributes` string is `"5"`
flattens to the number 5, which is neither a mapping nor the original
string. -/
theorem attributes_not_mapping_counterexample :
    span_data_of c4span = .ok c4out ∧
    c4out.lookup? "attributes" = some (.num 5) ∧
    (JValue.num 5).isObj = false ∧
    JValue.num 5 ≠ JValue.str "5" :=
  ⟨rfl, rfl, rfl, fun h => JValue.noConfusion h⟩

theorem fetch_traces_returns_none (kvs : List (String × JValue))
    (hnoerr : kvs.lookup "errors" = none)
    (hobj : ∃ dkvs, (kvs.lookup "data").getD (.obj []) = .obj dkvs ∧
      pyTruthy ((dkvs.lookup "getProjectSessionById").getD .null) = false) :
    fetch_traces (.obj kvs) = .ok none := by
  obtain ⟨dkvs, hd, hfalse⟩ := hobj
  simp only [fetch_traces, pyHasKey, pyGet, bind, Except.bind, hnoerr, Option.isSome_none,
    Bool.false_eq_true, if_false, hd, hfalse]
  rfl

/-- Claim C5: for every response whose payload's data does not contain a
(truthy) session object, `fetch_traces` returns the NotFound signal (`.ok
none`, not an error), and `main` then exits with code 1 after printing a
diagnostic, producing no output file. -/
theorem not_found_exits_one (kvs : List (String × JValue))
    (hnoerr : kvs.lookup "errors" = none)
    (hdata : ∀ d, kvs.lookup "data" = some d →
      ∃ dkvs, d = JValue.obj dkvs ∧
        pyTruthy ((dkvs.lookup "getProjectSessionById").getD .null) = false) :
    fetch_traces (.obj kvs) = .ok none ∧
    ∀ outputPath, mainOutcome (fetch_traces (.obj kvs)) outputPath = .notFoundExit ∧
      exitCode (mainOutcome (fetch_traces (.obj kvs)) outputPath) = 1 ∧
      printsDiagnostic (mainOutcome (fetch_traces (.obj kvs)) outputPath) = true ∧
      writesFile (mainOutcome (fetch_traces (.obj kvs)) outputPath) = false := by
  have hfetch : fetch_traces (.obj kvs) = .ok none := by
    refine fetch_traces_returns_none kvs hnoerr ?_
    cases hd : kvs.lookup "data" with
    | none => exact ⟨[], rfl, rfl⟩
    | some d =>
      obtain ⟨dkvs, rfl, hfalse⟩ := hdata d hd
      exact ⟨dkvs, rfl, hfalse⟩
  refine ⟨hfetch, fun outputPath => ?_⟩
  rw [hfetch]
  exact ⟨rfl, rfl, rfl, rfl⟩

theorem c5_witness :
    fetch_traces (.obj []) = .ok none ∧
    ∀ outputPath, mainOutcome (fetch_traces (.obj [])) outputPath = .notFoundExit ∧
      exitCode (mainOutcome (fetch_traces (.obj [])) outputPath) = 1 ∧
      printsDiagnostic (mainOutcome (fetch_traces (.obj [])) outputPath) = true ∧
      writesFile (mainOutcome (fetch_traces (.obj [])) outputPath) = false :=
  not_found_exits_one [] rfl (fun _ hd => nomatch hd)

/-- Claim C9: for every parsed response payload that lacks a top-level
`errors` field, if the payload has no `data` key at all, or
`data.getProjectSessionById` is absent, null or any other falsy value (such
as an empty object), `fetch_traces` returns the NotFound signal rather than
raising an error. -/
theorem missing_data_is_not_found (kvs : List (String × JValue))
    (hnoerr : kvs.lookup "errors" = none)
    (hcase : kvs.lookup "data" = none ∨
      ∃ dkvs, kvs.lookup "data" = some (.obj dkvs) ∧
        (dkvs.lookup "getProjectSessionById" = none ∨
          dkvs.lookup "getProjectSessionById" = some .null ∨
          ∃ sv, dkvs.lookup "getProjectSessionById" = some sv ∧ pyTruthy sv = false)) :
    fetch_traces (.obj kvs) = .ok none := by
  refine fetch_traces_returns_none kvs hnoerr ?_
  rcases hcase with hd | ⟨dkvs, hd, hc⟩
  · exact ⟨[], by rw [hd]; rfl, rfl⟩
  · refine ⟨dkvs, by rw [hd]; rfl, ?_⟩
    rcases hc with hc | hc | ⟨sv, hc, hfalse⟩
    · rw [hc]; rfl
    · rw [hc]; rfl
    · rw [hc]
      exact hfalse

theorem c9_witness :
    fetch_traces (.obj [("data", .obj [("getProjectSessionById", .obj [])])]) = .ok none :=
  missing_data_is_not_found [("data", .obj [("getProjectSessionById", .obj [])])] rfl
    (Or.inr ⟨[("getProjectSessionById", .obj [])], rfl,
      Or.inr (Or.inr ⟨.obj [], rfl, rfl⟩)⟩)

/-- Claim C6 counterexample: a span node whose `tokenCountTotal` key is
absent makes the flattening raise `KeyError` instead of emitting an
explicit null. -/
theorem absent_token_count_raises :
    span_data_of c6badSpan = .error (.keyError "tokenCountTotal") := rfl

/-- A well-formed `input` / `output` field (falsy or an object when present)
never makes `value_field_of` fail, and an absent or null field flattens to
null. -/
theorem value_field_result (kvs : List (String × JValue)) (k : String)
    (hok : ∀ v, kvs.lookup k = some v → pyTruthy v = false ∨ v.isObj = true) :
    ∃ w, value_field_of (.obj kvs) k = .ok w ∧
      ((kvs.lookup k = none ∨ kvs.lookup k = some .null) → w = .null) := by
  cases hi : kvs.lookup k with
  | none =>
    refine ⟨.null, ?_, fun _ => rfl⟩
    simp [value_field_of, pyGet, hi, pyTruthy, bind, Except.bind]
    rfl
  | some v =>
    rcases hok v hi with hf | ho
    · refine ⟨.null, ?_, fun _ => rfl⟩
      simp [value_field_of, pyGet, hi, hf, bind, Except.bind]
      rfl
    · cases v with
      | obj ivs =>
        cases htv : pyTruthy (.obj ivs) with
        | false =>
          refine ⟨.null, ?_, fun _ => rfl⟩
          simp [value_field_of, pyGet, hi, htv, bind, Except.bind]
          rfl
        | true =>
          refine ⟨(ivs.lookup "value").getD .null, ?_, ?_⟩
          · simp [value_field_of, pyGet, hi, htv, bind, Except.bind]
          · intro hcase
            rcases hcase with h | h
            · exact Option.noConfusion h
            · exact JValue.noConfusion (Option.some.inj h)
      | null => exact Bool.noConfusion ho
      | bool b => exact Bool.noConfusion ho
      | num n => exact Bool.noConfusion ho
      | str s => exact Bool.noConfusion ho
      | arr xs => exact Bool.noConfusion ho

/-- Claim C6 (amended): for every span node whose required fields are present
and whose `input` / `output` are well formed, the flattening succeeds and,
independently for each field, a `statusMessage`, `input` or `output` that is
absent or null in the response appears in the flattened span as an explicit
null, and each of the three token counts that is null in the response
appears as an explicit null, rather than being omitted. -/
theorem null_optional_fields_explicit (kvs : List (String × JValue))
    (hname : ∃ v, kvs.lookup "name" = some v)
    (hkind : ∃ v, kvs.lookup "spanKind" = some v)
    (hcode : ∃ v, kvs.lookup "statusCode" = some v)
    (hst : ∃ v, kvs.lookup "startTime" = some v)
    (hen : ∃ v, kvs.lookup "endTime" = some v)
    (hlat : ∃ v, kvs.lookup "latencyMs" = some v)
    (hpar : ∃ v, kvs.lookup "parentId" = some v)
    (htt : ∃ v, kvs.lookup "tokenCountTotal" = some v)
    (htp : ∃ v, kvs.lookup "tokenCountPrompt" = some v)
    (htc : ∃ v, kvs.lookup "tokenCountCompletion" = some v)
    (hin : ∀ v, kvs.lookup "input" = some v → pyTruthy v = false ∨ v.isObj = true)
    (hout : ∀ v, kvs.lookup "output" = some v → pyTruthy v = false ∨ v.isObj = true) :
    ∃ out, span_data_of (.obj kvs) = .ok (.obj out) ∧
      ((kvs.lookup "statusMessage" = none ∨ kvs.lookup "statusMessage" = some .null) →
        out.lookup "statusMessage" = some .null) ∧
      ((kvs.lookup "input" = none ∨ kvs.lookup "input" = some .null) →
        out.lookup "input" = some .null) ∧
      ((kvs.lookup "output" = none ∨ kvs.lookup "output" = some .null) →
        out.lookup "output" = some .null) ∧
      (kvs.lookup "tokenCountTotal" = some .null →
        out.lookup "tokenCountTotal" = some .null) ∧
      (kvs.lookup "tokenCountPrompt" = some .null →
        out.lookup "tokenCountPrompt" = some .null) ∧
      (kvs.lookup "tokenCountCompletion" = some .null →
        out.lookup "tokenCountCompletion" = some .null) := by
  obtain ⟨nv, hnv⟩ := hname
  obtain ⟨kv, hkv⟩ := hkind
  obtain ⟨cv, hcv⟩ := hcode
  obtain ⟨sv, hsv⟩ := hst
  obtain ⟨ev, hev⟩ := hen
  obtain ⟨lv, hlv⟩ := hlat
  obtain ⟨pv, hpv⟩ := hpar
  obtain ⟨ttv, httv⟩ := htt
  obtain ⟨tpv, htpv⟩ := htp
  obtain ⟨tcv, htcv⟩ := htc
  obtain ⟨iv, hiv, hivnull⟩ := value_field_result kvs "input" hin
  obtain ⟨ov, hov, hovnull⟩ := value_field_result kvs "output" hout
  refine ⟨[("name", nv), ("spanKind", kv), ("statusCode", cv),
    ("statusMessage", (kvs.lookup "statusMessage").getD .null),
    ("startTime", sv), ("endTime", ev), ("latencyMs", lv), ("parentId", pv),
    ("tokenCountTotal", ttv), ("tokenCountPrompt", tpv), ("tokenCountCompletion", tcv),
    ("input", iv), ("output", ov),
    ("attributes", parse_attributes ((kvs.lookup "attributes").getD .null))],
    ?_, ?_, ?_, ?_, ?_, ?_, ?_⟩
  · simp only [span_data_of, pyGet, pyIndex, bind, Except.bind, hnv, hkv, hcv, hsv, hev,
      hlv, hpv, httv, htpv, htcv, hiv, hov]
    rfl
  · intro h
    show some ((kvs.lookup "statusMessage").getD JValue.null) = some JValue.null
    rcases h with h | h <;> rw [h] <;> rfl
  · intro h
    show some iv = some JValue.null
    rw [hivnull h]
  · intro h
    show some ov = some JValue.null
    rw [hovnull h]
  · intro h
    have he : ttv = JValue.null := Option.some.inj (httv.symm.trans h)
    show some ttv = some JValue.null
    rw [he]
  · intro h
    have he : tpv = JValue.null := Option.some.inj (htpv.symm.trans h)
    show some tpv = some JValue.null
    rw [he]
  · intro h
    have he : tcv = JValue.null := Option.some.inj (htcv.symm.trans h)
    show some tcv = some JValue.null
    rw [he]

theorem skipWs_cons (c : Char) (l : List Char) (h : isWs c = false) :
    skipWs (c :: l) = c :: l := by
  simp [skipWs, h]

theorem digitChar_facts (d : Nat) (h : d < 10) :
    (digitChar d).isDigit = true ∧ isWs (digitChar d) = false ∧
    digitChar d ≠ 'n' ∧ digitChar d ≠ 't' ∧ digitChar d ≠ 'f' ∧ digitChar d ≠ '"' ∧
    digitChar d ≠ '[' ∧ digitChar d ≠ lbrace ∧ digitChar d ≠ '-' ∧ digitChar d ≠ ']' := by
  interval_cases d <;> decide

theorem digitVal_digitChar (d : Nat) (h : d < 10) : digitVal (digitChar d) = d := by
  interval_cases d <;> decide

theorem natChars_head (n : Nat) :
    ∃ d t, d < 10 ∧ natChars n = digitChar d :: t := by
  induction n using Nat.strong_induction_on with
  | _ n ih =>
    rw [natChars]
    by_cases h : n < 10
    · exact ⟨n, [], h, by simp [h]⟩
    · obtain ⟨d, t, hd, ht⟩ := ih (n / 10) (Nat.div_lt_self (by omega) (by omega))
      exact ⟨d, t ++ [digitChar (n % 10)], hd, by simp [h, ht]⟩

theorem natChars_all_digits (n : Nat) :
    ∀ c ∈ natChars n, c.isDigit = true := by
  induction n using Nat.strong_induction_on with
  | _ n ih =>
    rw [natChars]
    by_cases h : n < 10
    · simp only [h, dite_true]
      intro c hc
      simp only [List.mem_singleton] at hc
      subst hc
      exact (digitChar_facts n h).1
    · simp only [h, dite_false]
      intro c hc
      rcases List.mem_append.mp hc with hc | hc
      · exact ih (n / 10) (Nat.div_lt_self (by omega) (by omega)) c hc
      · simp only [List.mem_singleton] at hc
        subst hc
        exact (digitChar_facts (n % 10) (Nat.mod_lt _ (by omega))).1

theorem digitsToNat_append_one (l : List Char) (c : Char) :
    digitsToNat (l ++ [c]) = 10 * digitsToNat l + digitVal c := by
  simp [digitsToNat, List.foldl_append]

theorem digitsToNat_natChars (n : Nat) : digitsToNat (natChars n) = n := by
  induction n using Nat.strong_induction_on with
  | _ n ih =>
    rw [natChars]
    by_cases h : n < 10
    · simp only [h, dite_true]
      show digitsToNat ([] ++ [digitChar n]) = n
      rw [digitsToNat_append_one]
      simp [digitsToNat, digitVal_digitChar n h]
    · simp only [h, dite_false]
      rw [digitsToNat_append_one, ih (n / 10) (Nat.div_lt_self (by omega) (by omega)),
        digitVal_digitChar (n % 10) (Nat.mod_lt _ (by omega))]
      omega

theorem takeDigits_append (ds rest : List Char) (hds : ∀ c ∈ ds, c.isDigit = true)
    (hrest : numOk rest = true) : takeDigits (ds ++ rest) = (ds, rest) := by
  induction ds with
  | nil =>
    cases rest with
    | nil => rfl
    | cons c t =>
      simp only [numOk, Bool.not_eq_true'] at hrest
      simp [takeDigits, hrest]
  | cons c ds ih =>
    have hc : c.isDigit = true := hds c (List.mem_cons_self c ds)
    have ih2 := ih (fun x hx => hds x (List.mem_cons_of_mem c hx))
    simp [takeDigits, hc, ih2]

theorem parseNat_natChars (n : Nat) (rest : List Char) (hrest : numOk rest = true) :
    parseNat (natChars n ++ rest) = some (n, rest) := by
  have htd := takeDigits_append (natChars n) rest (natChars_all_digits n) hrest
  obtain ⟨d, t, hd, ht⟩ := natChars_head n
  rw [parseNat, htd, ht]
  show some (digitsToNat (digitChar d :: t), rest) = some (n, rest)
  rw [← ht, digitsToNat_natChars n]

theorem parseStringBody_esc (cs rest : List Char) :
    parseStringBody (cs.flatMap escChar ++ '"' :: rest) = some (cs, rest) := by
  induction cs with
  | nil => simp [parseStringBody.eq_def]
  | cons c cs ih =>
    simp only [List.flatMap_cons, List.append_assoc]
    by_cases h1 : c = '"'
    · subst h1; simp [escChar, parseStringBody, unescape, ih]
    · by_cases h2 : c = '\\'
      · subst h2; simp [escChar, parseStringBody, unescape, ih]
      · by_cases h3 : c = '\n'
        · subst h3; simp [escChar, parseStringBody, unescape, ih]
        · by_cases h4 : c = '\t'
          · subst h4; simp [escChar, parseStringBody, unescape, ih]
          · by_cases h5 : c = '\r'
            · subst h5; simp [escChar, parseStringBody, unescape, ih]
            · by_cases h6 : c = Char.ofNat 8
              · subst h6; simp [escChar, parseStringBody, unescape, ih]
              · by_cases h7 : c = Char.ofNat 12
                · subst h7; simp [escChar, parseStringBody, unescape, ih]
                · have hesc : escChar c = [c] := by
                    simp [escChar, h1, h2, h3, h4, h5, h6, h7]
                  rw [hesc, List.singleton_append, parseStringBody.eq_def]
                  simp [h1, h2, ih]

theorem dumpVal_head (v : JValue) :
    ∃ c t, dumpVal v = c :: t ∧ isWs c = false ∧ c ≠ ']' := by
  cases v with
  | null => refine ⟨'n', _, rfl, ?_, ?_⟩ <;> decide
  | bool b =>
    cases b
    · refine ⟨'f', _, rfl, ?_, ?_⟩ <;> decide
    · refine ⟨'t', _, rfl, ?_, ?_⟩ <;> decide
  | num n =>
    rw [show dumpVal (.num n) = intChars n from rfl, intChars]
    by_cases h : n < 0
    · refine ⟨'-', natChars n.natAbs, ?_, ?_, ?_⟩
      · simp [h]
      · decide
      · decide
    · obtain ⟨d, t, hd, ht⟩ := natChars_head n.toNat
      obtain ⟨-, hws, -, -, -, -, -, -, -, hnb⟩ := digitChar_facts d hd
      exact ⟨digitChar d, t, by simp [h, ht], hws, hnb⟩
  | str s => refine ⟨'"', _, rfl, ?_, ?_⟩ <;> decide
  | arr xs => refine ⟨'[', _, rfl, ?_, ?_⟩ <;> decide
  | obj kvs => refine ⟨lbrace, _, rfl, ?_, ?_⟩ <;> decide

theorem dumpVal_ne_nil (v : JValue) : dumpVal v ≠ [] := by
  obtain ⟨c, t, h, -, -⟩ := dumpVal_head v
  simp [h]

theorem dumpVal_length_pos (v : JValue) : 1 ≤ (dumpVal v).length := by
  obtain ⟨c, t, h, -, -⟩ := dumpVal_head v
  simp [h]

theorem parseVal_quote (fuel : Nat) (X : List Char) :
    parseVal (fuel+1) ('"' :: X)
      = (parseStringBody X).map (fun p => (JValue.str (String.mk p.1), p.2)) := rfl

theorem parseVal_lbracket (fuel : Nat) (X : List Char) :
    parseVal (fuel+1) ('[' :: X) =
      (match skipWs X with
      | [] => none
      | d :: r2 =>
        if d = ']' then some (.arr [], r2)
        else (parseElems fuel (d :: r2)).map (fun p => (JValue.arr p.1, p.2))) := rfl

theorem parseVal_lcurly (fuel : Nat) (X : List Char) :
    parseVal (fuel+1) (lbrace :: X) =
      (match skipWs X with
      | [] => none
      | d :: r2 =>
        if d = rbrace then some (.obj [], r2)
        else (parseMembers fuel (d :: r2)).map (fun p => (JValue.obj p.1, p.2))) := rfl

theorem parseVal_dash (fuel : Nat) (X : List Char) :
    parseVal (fuel+1) ('-' :: X)
      = (parseNat X).map (fun p => (JValue.num (-(p.1 : Int)), p.2)) := rfl

theorem parseElems_succ (fuel : Nat) (input : List Char) :
    parseElems (fuel+1) input =
      (match parseVal fuel input with
      | none => none
      | some (v, rest) =>
        match skipWs rest with
        | [] => none
        | d :: r2 =>
          if d = ',' then (parseElems fuel r2).map (fun p => (v :: p.1, p.2))
          else if d = ']' then some ([v], r2)
          else none) := rfl

theorem parseMembers_succ (fuel : Nat) (input : List Char) :
    parseMembers (fuel+1) input =
      (match skipWs input with
      | [] => none
      | c :: rest =>
        if c = '"' then
          match parseStringBody rest with
          | none => none
          | some (kcs, rest2) =>
            match skipWs rest2 with
            | [] => none
            | d :: rest3 =>
              if d = ':' then
                match parseVal fuel rest3 with
                | none => none
                | some (v, rest4) =>
                  match skipWs rest4 with
                  | [] => none
                  | e :: rest5 =>
                    if e = ',' then
                      (parseMembers fuel rest5).map (fun p => ((String.mk kcs, v) :: p.1, p.2))
                    else if e = rbrace then some ([(String.mk kcs, v)], rest5)
                    else none
              else none
        else none) := rfl

theorem parseVal_digit_head (fuel : Nat) (c : Char) (X : List Char)
    (hws : isWs c = false) (h1 : c ≠ 'n') (h2 : c ≠ 't') (h3 : c ≠ 'f') (h4 : c ≠ '"')
    (h5 : c ≠ '[') (h6 : c ≠ lbrace) (h7 : c ≠ '-') (h8 : c.isDigit = true) :
    parseVal (fuel+1) (c :: X)
      = (parseNat (c :: X)).map (fun p => (JValue.num (p.1 : Int), p.2)) := by
  conv_lhs => rw [parseVal.eq_def]
  simp [skipWs_cons c X hws, h1, h2, h3, h4, h5, h6, h7, h8]

theorem parse_dump (fuel : Nat) :
    (∀ v rest, (dumpVal v).length ≤ fuel → numOk rest = true →
      parseVal fuel (dumpVal v ++ rest) = some (v, rest)) ∧
    (∀ xs rest, xs ≠ [] → (dumpElems xs).length + 1 ≤ fuel →
      parseElems fuel (dumpElems xs ++ ']' :: rest) = some (xs, rest)) ∧
    (∀ kvs rest, kvs ≠ [] → (dumpMembers kvs).length + 1 ≤ fuel →
      parseMembers fuel (dumpMembers kvs ++ rbrace :: rest) = some (kvs, rest)) := by
  induction fuel with
  | zero =>
    refine ⟨fun v rest hlen _ => absurd hlen ?_, fun xs rest hne hlen => absurd hlen (by omega),
      fun kvs rest hne hlen => absurd hlen (by omega)⟩
    have := dumpVal_length_pos v
    omega
  | succ fuel ih =>
    obtain ⟨ihV, ihE, ihM⟩ := ih
    refine ⟨?_, ?_, ?_⟩
    · intro v rest hlen hrest
      cases v with
      | null => rfl
      | bool b => cases b <;> rfl
      | num n =>
        rw [show dumpVal (.num n) = intChars n from rfl, intChars]
        by_cases h : n < 0
        · simp only [if_pos h, List.cons_append]
          rw [parseVal_dash, parseNat_natChars n.natAbs rest hrest]
          have hn : -((n.natAbs : Nat) : Int) = n := by omega
          show some (JValue.num (-((n.natAbs : Nat) : Int)), rest) = some (JValue.num n, rest)
          rw [hn]
        · simp only [if_neg h]
          obtain ⟨d, t, hd, ht⟩ := natChars_head n.toNat
          obtain ⟨hdig, hws, hne1, hne2, hne3, hne4, hne5, hne6, hne7, -⟩ :=
            digitChar_facts d hd
          rw [ht, List.cons_append,
            parseVal_digit_head fuel (digitChar d) (t ++ rest) hws hne1 hne2 hne3 hne4
              hne5 hne6 hne7 hdig,
            show digitChar d :: (t ++ rest) = (digitChar d :: t) ++ rest from rfl, ← ht,
            parseNat_natChars n.toNat rest hrest]
          have hn : ((n.toNat : Nat) : Int) = n := by omega
          show some (JValue.num ((n.toNat : Nat) : Int), rest) = some (JValue.num n, rest)
          rw [hn]
      | str s =>
        have heq : dumpVal (.str s) ++ rest = '"' :: (escString s ++ '"' :: rest) := by
          show ('"' :: (escString s ++ ['"'])) ++ rest = _
          simp
        rw [heq, parseVal_quote, show escString s = s.data.flatMap escChar from rfl,
          parseStringBody_esc s.data rest]
        rfl
      | arr xs =>
        cases xs with
        | nil => rfl
        | cons x xs =>
          have hlen2 : (dumpElems (x :: xs)).length + 1 ≤ fuel := by
            have hx : dumpVal (.arr (x :: xs)) = '[' :: (dumpElems (x :: xs) ++ [']']) := rfl
            rw [hx] at hlen
            simp at hlen
            omega
          have heq : dumpVal (.arr (x :: xs)) ++ rest
              = '[' :: (dumpElems (x :: xs) ++ ']' :: rest) := by
            show ('[' :: (dumpElems (x :: xs) ++ [']'])) ++ rest = _
            simp
          rw [heq, parseVal_lbracket]
          obtain ⟨cv, tv, hv, hws, hnb⟩ := dumpVal_head x
          have hsplit : ∃ tl, dumpElems (x :: xs) = cv :: tl := by
            cases xs with
            | nil => exact ⟨tv, hv⟩
            | cons y ys => exact ⟨tv ++ ',' :: dumpElems (y :: ys), by
                rw [show dumpElems (x :: y :: ys) = dumpVal x ++ ',' :: dumpElems (y :: ys)
                  from rfl, hv]
                rfl⟩
          obtain ⟨tl, htl⟩ := hsplit
          rw [htl, List.cons_append, skipWs_cons cv _ hws]
          simp only [if_neg hnb]
          rw [← List.cons_append, ← htl, ihE (x :: xs) rest (by simp) hlen2]
          rfl
      | obj kvs =>
        cases kvs with
        | nil => rfl
        | cons m ms =>
          have hlen2 : (dumpMembers (m :: ms)).length + 1 ≤ fuel := by
            have hx : dumpVal (.obj (m :: ms)) = lbrace :: (dumpMembers (m :: ms) ++ [rbrace]) :=
              rfl
            rw [hx] at hlen
            simp at hlen
            omega
          have heq : dumpVal (.obj (m :: ms)) ++ rest
              = lbrace :: (dumpMembers (m :: ms) ++ rbrace :: rest) := by
            show (lbrace :: (dumpMembers (m :: ms) ++ [rbrace])) ++ rest = _
            simp
          rw [heq, parseVal_lcurly]
          have hsplit : ∃ tl, dumpMembers (m :: ms) = '"' :: tl := by
            rcases m with ⟨k, v⟩
            cases ms with
            | nil => exact ⟨escString k ++ '"' :: ':' :: dumpVal v, rfl⟩
            | cons m2 ms2 => exact ⟨(escString k ++ '"' :: ':' :: dumpVal v)
                ++ ',' :: dumpMembers (m2 :: ms2), by
                rw [show dumpMembers ((k, v) :: m2 :: ms2)
                  = ('"' :: (escString k ++ '"' :: ':' :: dumpVal v))
                    ++ ',' :: dumpMembers (m2 :: ms2) from rfl]
                rfl⟩
          obtain ⟨tl, htl⟩ := hsplit
          rw [htl, List.cons_append, skipWs_cons '"' _ (by decide)]
          simp only [if_neg (show ('"' : Char) ≠ rbrace by decide)]
          rw [← List.cons_append, ← htl, ihM (m :: ms) rest (by simp) hlen2]
          rfl
    · intro xs rest hne hlen
      cases xs with
      | nil => exact absurd rfl hne
      | cons x xs =>
        cases xs with
        | nil =>
          have hx : (dumpVal x).length ≤ fuel := by
            have h1 : dumpElems [x] = dumpVal x := rfl
            rw [h1] at hlen
            omega
          rw [show dumpElems [x] = dumpVal x from rfl, parseElems_succ,
            ihV x (']' :: rest) hx rfl]
          rfl
        | cons y ys =>
          have h1 : (dumpVal x).length ≤ fuel := by
            have hx : dumpElems (x :: y :: ys) = dumpVal x ++ ',' :: dumpElems (y :: ys) := rfl
            rw [hx] at hlen
            simp at hlen
            omega
          have h2 : (dumpElems (y :: ys)).length + 1 ≤ fuel := by
            have hx : dumpElems (x :: y :: ys) = dumpVal x ++ ',' :: dumpElems (y :: ys) := rfl
            have hp := dumpVal_length_pos x
            rw [hx] at hlen
            simp at hlen
            omega
          rw [show dumpElems (x :: y :: ys) = dumpVal x ++ ',' :: dumpElems (y :: ys) from rfl,
            parseElems_succ]
          have heq : (dumpVal x ++ ',' :: dumpElems (y :: ys)) ++ ']' :: rest
              = dumpVal x ++ (',' :: (dumpElems (y :: ys) ++ ']' :: rest)) := by
            simp
          rw [heq, ihV x (',' :: (dumpElems (y :: ys) ++ ']' :: rest)) h1 rfl]
          show (parseElems fuel (dumpElems (y :: ys) ++ ']' :: rest)).map
              (fun p => (x :: p.1, p.2)) = some (x :: y :: ys, rest)
          rw [ihE (y :: ys) rest (by simp) h2]
          rfl
    · intro kvs rest hne hlen
      cases kvs with
      | nil => exact absurd rfl hne
      | cons m ms =>
        rcases m with ⟨k, v⟩
        cases ms with
        | nil =>
          have hv : (dumpVal v).length ≤ fuel := by
            have h1 : dumpMembers [(k, v)] = '"' :: (escString k ++ '"' :: ':' :: dumpVal v) :=
              rfl
            rw [h1] at hlen
            simp at hlen
            omega
          rw [show dumpMembers [(k, v)] = '"' :: (escString k ++ '"' :: ':' :: dumpVal v)
            from rfl, parseMembers_succ]
          have heq : ('"' :: (escString k ++ '"' :: ':' :: dumpVal v)) ++ rbrace :: rest
              = '"' :: (escString k ++ '"' :: (':' :: (dumpVal v ++ rbrace :: rest))) := by
            simp
          rw [heq]
          simp only [skipWs_cons '"' _ (by decide), if_pos rfl]
          rw [show escString k = k.data.flatMap escChar from rfl,
            parseStringBody_esc k.data (':' :: (dumpVal v ++ rbrace :: rest))]
          simp only [skipWs_cons ':' _ (by decide), if_pos rfl]
          rw [ihV v (rbrace :: rest) hv rfl]
          simp only [skipWs_cons rbrace _ (by decide),
            if_neg (show rbrace ≠ ',' by decide), if_pos rfl]
          rfl
        | cons m2 ms2 =>
          have h1 : (dumpVal v).length ≤ fuel := by
            have hx : dumpMembers ((k, v) :: m2 :: ms2)
                = ('"' :: (escString k ++ '"' :: ':' :: dumpVal v))
                  ++ ',' :: dumpMembers (m2 :: ms2) := rfl
            rw [hx] at hlen
            simp at hlen
            omega
          have h2 : (dumpMembers (m2 :: ms2)).length + 1 ≤ fuel := by
            have hx : dumpMembers ((k, v) :: m2 :: ms2)
                = ('"' :: (escString k ++ '"' :: ':' :: dumpVal v))
                  ++ ',' :: dumpMembers (m2 :: ms2) := rfl
            have hp := dumpVal_length_pos v
            rw [hx] at hlen
            simp at hlen
            omega
          rw [show dumpMembers ((k, v) :: m2 :: ms2)
            = ('"' :: (escString k ++ '"' :: ':' :: dumpVal v))
              ++ ',' :: dumpMembers (m2 :: ms2) from rfl, parseMembers_succ]
          have heq : (('"' :: (escString k ++ '"' :: ':' :: dumpVal v))
                ++ ',' :: dumpMembers (m2 :: ms2)) ++ rbrace :: rest
              = '"' :: (escString k ++ '"' :: (':' :: (dumpVal v
                ++ ',' :: (dumpMembers (m2 :: ms2) ++ rbrace :: rest)))) := by
            simp
          rw [heq]
          simp only [skipWs_cons '"' _ (by decide), if_pos rfl]
          rw [show escString k = k.data.flatMap escChar from rfl,
            parseStringBody_esc k.data (':' :: (dumpVal v
              ++ ',' :: (dumpMembers (m2 :: ms2) ++ rbrace :: rest)))]
          simp only [skipWs_cons ':' _ (by decide), if_pos rfl]
          rw [ihV v (',' :: (dumpMembers (m2 :: ms2) ++ rbrace :: rest)) h1 rfl]
          simp only [skipWs_cons ',' _ (by decide), if_pos rfl]
          rw [ihM (m2 :: ms2) rest (by simp) h2]
          rfl

theorem jsonParse_jsonDumps (v : JValue) : jsonParse (jsonDumps v) = some v := by
  have hA := (parse_dump ((dumpVal v).length + 1)).1 v [] (by omega) rfl
  rw [List.append_nil] at hA
  show (match parseVal ((jsonDumps v).length + 1) (jsonDumps v).data with
    | some (w, rest) => if skipWs rest = [] then some w else none
    | none => none) = some v
  rw [show (jsonDumps v).data = dumpVal v from rfl,
    show (jsonDumps v).length = (dumpVal v).length from rfl, hA]
  rfl

/-- Claim C3: for every span whose `attributes` field is a string that is
valid JSON, the output span's `attributes` value equals the structure
obtained by parsing that string, and serializing that value back to JSON
and parsing it again yields the same structure (round-trip). -/
theorem attributes_valid_json_roundtrip (s : GSpan) (a : String) (v : JValue)
    (hs : s.attributes = .str a) (hv : jsonParse a = some v) :
    span_data_of s.encode = .ok (spanOut s) ∧
    (spanOut s).lookup? "attributes" = some v ∧
    jsonParse (jsonDumps v) = some v := by
  have hne : a ≠ "" := by
    intro he
    rw [he, show jsonParse "" = none from rfl] at hv
    exact Option.noConfusion hv
  refine ⟨span_data_of_encode s, ?_, jsonParse_jsonDumps v⟩
  rw [spanOut_attributes, hs]
  simp [parse_attributes, pyTruthy, JValue.isStr, hne, hv]

theorem c3_witness :
    span_data_of c3span.encode = .ok (spanOut c3span) ∧
    (spanOut c3span).lookup? "attributes" = some (.arr [.num 1, .num 2]) ∧
    jsonParse (jsonDumps (.arr [.num 1, .num 2])) = some (.arr [.num 1, .num 2]) :=
  attributes_valid_json_roundtrip c3span "[1,2]" (.arr [.num 1, .num 2]) rfl rfl

/-- C6 amended witness, at a mixed-profile span node. -/
theorem c6_witness :
    ∃ out, span_data_of (.obj c6okSpan) = .ok (.obj out) ∧
      ((List.lookup "statusMessage" c6okSpan = none ∨
        List.lookup "statusMessage" c6okSpan = some .null) →
        out.lookup "statusMessage" = some .null) ∧
      ((List.lookup "input" c6okSpan = none ∨
        List.lookup "input" c6okSpan = some .null) →
        out.lookup "input" = some .null) ∧
      ((List.lookup "output" c6okSpan = none ∨
        List.lookup "output" c6okSpan = some .null) →
        out.lookup "output" = some .null) ∧
      (List.lookup "tokenCountTotal" c6okSpan = some .null →
        out.lookup "tokenCountTotal" = some .null) ∧
      (List.lookup "tokenCountPrompt" c6okSpan = some .null →
        out.lookup "tokenCountPrompt" = some .null) ∧
      (List.lookup "tokenCountCompletion" c6okSpan = some .null →
        out.lookup "tokenCountCompletion" = some .null) :=
  null_optional_fields_explicit c6okSpan ⟨.str "s", rfl⟩ ⟨.str "LLM", rfl⟩ ⟨.str "OK", rfl⟩
    ⟨.str "t0", rfl⟩ ⟨.str "t1", rfl⟩ ⟨.num 7, rfl⟩ ⟨.null, rfl⟩
    ⟨.num 5, rfl⟩ ⟨.null, rfl⟩ ⟨.null, rfl⟩
    (fun v hv => by
      rw [show List.lookup "input" c6okSpan = (none : Option JValue) from rfl] at hv
      exact Option.noConfusion hv)
    (fun v hv => by
      rw [show List.lookup "output" c6okSpan = some JValue.null from rfl] at hv
      cases Option.some.inj hv
      exact Or.inl rfl)

/-- Claim C7: for an input list file consisting of the lines `A:x, y` and
`B:y`, querying dashboard `A` yields references `[x, y]` with reference
`y`'s dashboard-usage count equal to 2, and querying reference `y` yields
the dashboard list `[A, B]`. -/
theorem cross_reference_example :
    (buildMaps c7lines).map (fun m => m.1.lookup "A") = some (some ["x", "y"]) ∧
    (buildMaps c7lines).map (fun m => refCount m.2 "y") = some (some 2) ∧
    (buildMaps c7lines).map (fun m => m.2.lookup "y") = some (some ["A", "B"]) :=
  ⟨rfl, rfl, rfl⟩

/-- Claim C10 counterexample: in the file `A:y, y` / `A:z`, dashboard `A`
appears on two lines, yet the printed count for reference `y` is 2 while
only one input line lists `y` — the count is not the number of lines
listing the reference. -/
theorem count_exceeds_lines_counterexample :
    (c10lines.filterMap parseLine).map Prod.fst = ["A", "A"] ∧
    (buildMaps c10lines).map (fun m => refCount m.2 "y") = some (some 2) ∧
    (linesListing c10lines "y").length = 1 ∧
    (2 : Nat) ≠ 1 ∧
    (buildMaps c10lines).map (fun m => m.1.lookup "A") = some (some ["z"]) :=
  ⟨rfl, rfl, rfl, by decide, rfl⟩

theorem lookup_cons {α : Type} (k0 : String) (v0 : α) (rest : List (String × α)) (k' : String) :
    List.lookup k' ((k0, v0) :: rest) = if k' = k0 then some v0 else List.lookup k' rest := by
  by_cases h : k' = k0
  · simp [List.lookup, h]
  · have hb : (k' == k0) = false := beq_eq_false_iff_ne.mpr h
    simp [List.lookup, hb, h]

theorem lookup_dictInsert (d : List (String × List String)) (k : String) (v : List String)
    (k' : String) :
    (dictInsert d k v).lookup k' = if k' = k then some v else d.lookup k' := by
  induction d with
  | nil =>
    rw [show dictInsert [] k v = [(k, v)] from rfl, lookup_cons]
  | cons p rest ih =>
    rcases p with ⟨k0, v0⟩
    rw [dictInsert]
    by_cases h0 : k0 = k
    · subst h0
      rw [if_pos rfl]
      simp only [lookup_cons]
      by_cases h : k' = k0
      · simp only [if_pos h]
      · simp only [if_neg h]
    · rw [if_neg h0]
      simp only [lookup_cons, ih]
      by_cases h : k' = k0
      · have hk : ¬(k' = k) := fun he => h0 (h.symm.trans he)
        simp only [if_pos h, if_neg hk]
      · simp only [if_neg h]

theorem lookup_addReference (rd : List (String × List String)) (dash r r' : String) :
    (addReference rd dash r).lookup r'
      = if r' = r then some (((rd.lookup r).getD []) ++ [dash]) else rd.lookup r' := by
  induction rd with
  | nil =>
    rw [show addReference [] dash r = [(r, [dash])] from rfl, lookup_cons]
    by_cases h : r' = r <;> simp [h, List.lookup]
  | cons p rest ih =>
    rcases p with ⟨k0, ds0⟩
    rw [addReference]
    by_cases h0 : k0 = r
    · subst h0
      rw [if_pos rfl]
      simp only [lookup_cons, if_pos rfl]
      by_cases h : r' = k0
      · simp only [if_pos h]
        rfl
      · simp only [if_neg h]
    · rw [if_neg h0]
      simp only [lookup_cons, ih]
      have hrk : ¬(r = k0) := fun he => h0 he.symm
      simp only [if_neg hrk]
      by_cases h : r' = k0
      · have hr : ¬(r' = r) := fun he => h0 (h.symm.trans he)
        simp only [if_pos h, if_neg hr]
      · simp only [if_neg h]

theorem foldl_addReference_length (refs : List String) (dash : String)
    (rd : List (String × List String)) (r : String) :
    (((refs.foldl (fun rd2 x => addReference rd2 dash x) rd).lookup r).getD []).length
      = ((rd.lookup r).getD []).length + refs.count r := by
  induction refs generalizing rd with
  | nil => simp
  | cons x xs ih =>
    rw [List.foldl_cons, ih, lookup_addReference rd dash x r]
    by_cases h : r = x
    · rw [if_pos h]
      subst h
      simp [List.count_cons]
      omega
    · have hb : (r == x) = false := beq_eq_false_iff_ne.mpr h
      have hb2 : ¬(x = r) := fun he => h he.symm
      rw [if_neg h]
      simp [List.count_cons, hb, hb2]

theorem buildMaps_go (lines : List String)
    (hwf : ∀ l ∈ lines, (parseLine l).isSome = true) :
    ∀ dr rd : List (String × List String),
    ∃ dr2 rd2, lines.foldlM processLine (dr, rd) = some (dr2, rd2) ∧
      (∀ d, dr2.lookup d = match lastRefsOf lines d with
        | some refs => some refs
        | none => dr.lookup d) ∧
      (∀ r, ((rd2.lookup r).getD []).length
        = ((rd.lookup r).getD []).length + totalOccurrences lines r) := by
  induction lines with
  | nil =>
    intro dr rd
    refine ⟨dr, rd, rfl, fun d => rfl, fun r => by simp [totalOccurrences]⟩
  | cons l ls ih =>
    intro dr rd
    have hl : (parseLine l).isSome = true := hwf l (List.mem_cons_self l ls)
    obtain ⟨q, hq⟩ := Option.isSome_iff_exists.mp hl
    rcases q with ⟨dash, refs⟩
    have hstep : processLine (dr, rd) l
        = some (dictInsert dr dash refs,
            refs.foldl (fun rd2 x => addReference rd2 dash x) rd) := by
      rw [processLine, hq]
    obtain ⟨dr2, rd2, hfold, hdr, hrd⟩ :=
      ih (fun x hx => hwf x (List.mem_cons_of_mem l hx))
        (dictInsert dr dash refs) (refs.foldl (fun rd2 x => addReference rd2 dash x) rd)
    refine ⟨dr2, rd2, ?_, ?_, ?_⟩
    · rw [List.foldlM_cons, hstep]
      exact hfold
    · intro d
      rw [hdr d, lastRefsOf]
      cases hlast : lastRefsOf ls d with
      | some refs2 => rfl
      | none =>
        simp only [hq, lookup_dictInsert]
        by_cases h : dash = d
        · simp only [if_pos h, if_pos h.symm]
        · simp only [if_neg h, if_neg (fun he : d = dash => h he.symm)]
    · intro r
      rw [hrd r, foldl_addReference_length]
      have ht : totalOccurrences (l :: ls) r = refs.count r + totalOccurrences ls r := by
        rw [totalOccurrences, totalOccurrences, List.map_cons, List.sum_cons, hq]
      omega

/-- Claim C10 (amended): for every well-formed input list file, the
dashboard-to-references mapping retains only the last line's references for
a dashboard appearing on several lines, while the reference-to-dashboards
mapping appends that dashboard once per occurrence; the printed count for a
reference equals the total number of occurrences of that reference across
all lines' reference lists (counting multiplicity within a line), which can
exceed the number of distinct dashboards that use it. -/
theorem duplicate_dashboards_behavior (lines : List String)
    (hwf : ∀ l ∈ lines, (parseLine l).isSome = true) :
    ∃ dr rd, buildMaps lines = some (dr, rd) ∧
      (∀ d, dr.lookup d = lastRefsOf lines d) ∧
      (∀ r, ((rd.lookup r).getD []).length = totalOccurrences lines r) := by
  obtain ⟨dr2, rd2, hfold, hdr, hrd⟩ := buildMaps_go lines hwf [] []
  refine ⟨dr2, rd2, hfold, fun d => ?_, fun r => ?_⟩
  · rw [hdr d]
    cases lastRefsOf lines d <;> rfl
  · rw [hrd r]
    simp

theorem c10_witness :
    ∃ dr rd, buildMaps c10lines = some (dr, rd) ∧
      (∀ d, dr.lookup d = lastRefsOf c10lines d) ∧
      (∀ r, ((rd.lookup r).getD []).length = totalOccurrences c10lines r) :=
  duplicate_dashboards_behavior c10lines (by decide)

theorem resolve_append (e : FSEntry) (p q : List String) :
    e.resolve (p ++ q) = match e.resolve p with
      | some c => c.resolve q
      | none => none := by
  induction p generalizing e with
  | nil => rfl
  | cons n ns ih =>
    rw [List.cons_append]
    cases he : e.lookup n with
    | none => simp [FSEntry.resolve, he]
    | some c => simp [FSEntry.resolve, he, ih c]

theorem nodupKeysFS_lookup (es : List (String × FSEntry)) (h : nodupKeysFS es = true) :
    ∀ p ∈ es, es.lookup p.1 = some p.2 := by
  induction es with
  | nil => intro p hp; cases hp
  | cons q rest ih =>
    rcases q with ⟨k0, n0⟩
    rw [nodupKeysFS, Bool.and_eq_true] at h
    obtain ⟨hnot, hrest⟩ := h
    intro p hp
    rcases List.mem_cons.mp hp with hp | hp
    · subst hp
      rw [lookup_cons, if_pos rfl]
    · have hne : ¬(p.1 = k0) := by
        intro he
        have hany : rest.any (fun q => q.1 == k0) = true :=
          List.any_eq_true.mpr ⟨p, hp, by simp [he]⟩
        rw [hany] at hnot
        cases hnot
      rw [lookup_cons, if_neg hne]
      exact ih hrest p hp

theorem filterMap_names (bes : List (String × FSEntry)) (l : List (String × FSEntry))
    (hsub : ∀ p ∈ l, bes.lookup p.1 = some p.2) :
    (l.map Prod.fst).filterMap (fun b =>
      if (match bes.lookup b with
        | some (.dir _) => true
        | _ => false) = true
      then some ("* " ++ b) else none)
    = l.filterMap (fun q => match q.2 with
      | .dir _ => some ("* " ++ q.1)
      | .file => none) := by
  induction l with
  | nil => rfl
  | cons p rest ih =>
    rcases p with ⟨b, bn⟩
    have hb : bes.lookup b = some bn := hsub (b, bn) (List.mem_cons_self _ _)
    have ih2 := ih (fun q hq => hsub q (List.mem_cons_of_mem _ hq))
    rw [List.map_cons, List.filterMap_cons, List.filterMap_cons, hb]
    cases bn with
    | dir es2 => simp [ih2]
    | file => simp [ih2]

theorem packageBlock_spec (root : FSEntry) (name : String) (node : FSEntry)
    (hlook : root.lookup name = some node) (hnd : rallyNodup (name, node) = true) :
    packageBlock root name
      = match rallyOf node with
        | some (.dir bes) =>
          ("Package: " ++ name) ::
            ((bes.filterMap (fun q =>
              match q.2 with
              | .dir _ => some ("* " ++ q.1)
              | .file => none)) ++ [""])
        | _ => [] := by
  have h4 : root.resolve [name, "_dev", "benchmark", "rally"] = rallyOf node := by
    have ha := resolve_append root [name] ["_dev", "benchmark", "rally"]
    rw [show ([name] ++ ["_dev", "benchmark", "rally"])
      = [name, "_dev", "benchmark", "rally"] from rfl] at ha
    rw [ha]
    simp [FSEntry.resolve, hlook, rallyOf]
  cases hr : rallyOf node with
  | none => simp [packageBlock, isdirAt, h4, hr]
  | some rn =>
    cases rn with
    | file => simp [packageBlock, isdirAt, h4, hr]
    | dir bes =>
      have hnd2 : nodupKeysFS bes = true := by
        rw [rallyNodup, hr] at hnd
        exact hnd
      have hcond : ∀ b, (match root.resolve ([name, "_dev", "benchmark", "rally"] ++ [b]) with
            | some (.dir _) => true
            | _ => false)
          = (match bes.lookup b with
            | some (.dir _) => true
            | _ => false) := by
        intro b
        have ha := resolve_append root [name, "_dev", "benchmark", "rally"] [b]
        rw [ha, h4, hr]
        cases hl : bes.lookup b with
        | none => simp [FSEntry.resolve, FSEntry.lookup, hl]
        | some c => cases c <;> simp [FSEntry.resolve, FSEntry.lookup, hl]
      rw [packageBlock]
      simp only [isdirAt, h4, hr, listdirAt, if_true, Option.getD_some]
      simp only [hcond]
      rw [filterMap_names bes bes (nodupKeysFS_lookup bes hnd2)]

theorem flatMap_names (root : FSEntry) (l : List (String × FSEntry))
    (hsub : ∀ p ∈ l, root.lookup p.1 = some p.2)
    (hnd : ∀ p ∈ l, rallyNodup p = true) :
    (l.map Prod.fst).flatMap (packageBlock root) = benchmarkReport l := by
  induction l with
  | nil => rfl
  | cons p rest ih =>
    rw [List.map_cons, List.flatMap_cons, benchmarkReport, List.flatMap_cons,
      packageBlock_spec root p.1 p.2 (hsub p (List.mem_cons_self _ _))
        (hnd p (List.mem_cons_self _ _)),
      ih (fun q hq => hsub q (List.mem_cons_of_mem _ hq))
        (fun q hq => hnd q (List.mem_cons_of_mem _ hq))]
    rfl

/-- Claim C8: for every entry in the packages directory, the benchmark
lister prints the package name if and only if that package contains the
fixed benchmark subpath `_dev/benchmark/rally` as a directory, and beneath
it prints exactly the names of that subpath's immediate entries that are
directories (no recursion, no files). -/
theorem list_benchmark_packages_spec (es : List (String × FSEntry))
    (h1 : nodupKeysFS es = true) (h2 : es.all rallyNodup = true) :
    list_benchmark_packages (.dir es) = some (benchmarkReport es) := by
  show some ((es.map Prod.fst).flatMap (packageBlock (.dir es))) = some (benchmarkReport es)
  rw [flatMap_names (.dir es) es (nodupKeysFS_lookup es h1)
    (fun p hp => List.all_eq_true.mp h2 p hp)]

theorem c8_witness :
    list_benchmark_packages (.dir fsEx) = some (benchmarkReport fsEx) ∧
    benchmarkReport fsEx = ["Package: aws", "* bench1", ""] :=
  ⟨list_benchmark_packages_spec fsEx rfl rfl, rfl⟩
